import Mathlib

/-
Verification development for the discovery-provider selector
(src/libs/output/libs/services/discoveryProvider/DiscoveryProviderSelector.ts).
The TypeScript class is shallowly embedded: object fields become explicit
state records, `setTimeout` scheduling becomes an explicit list of pending
expiry times, thrown exceptions become `Except.error`, and the external
version registry (ethContracts) becomes an explicit `Registry` record with
a query log so that memoization claims can be stated.
-/

namespace Audius

/-- Semantic version as parsed by the semver library: major.minor.patch.
A response whose version string does not parse carries `none` instead. -/
structure SemVer where
  major : Nat
  minor : Nat
  patch : Nat
deriving DecidableEq, Repr

/-- Strict semver order (lexicographic on major, minor, patch), the order
underlying the semver library comparison used by `semver.rcompare`. -/
def semverLt (a b : SemVer) : Bool :=
  decide (a.major < b.major) ||
    (a.major == b.major &&
      (decide (a.minor < b.minor) ||
        (a.minor == b.minor && decide (a.patch < b.patch))))

/-- Non-strict semver order. -/
def semverLe (a b : SemVer) : Bool :=
  semverLt a b || a == b

/-- Modelled from the spec: `ethContracts.hasSameMajorAndMinorVersion` is part
of the version-registry collaborator, whose code is not under src/; the spec
defines same generation as equal major and equal minor. -/
def hasSameMajorAndMinorVersion (a b : SemVer) : Bool :=
  a.major == b.major && a.minor == b.minor

/-- Configuration and registry facts consulted by `isHealthy`:
the expected service name constant, the current on-chain version,
UNHEALTHY_BLOCK_DIFF, and the optional `unhealthySlotDiffPlays` config. -/
structure HealthConfig where
  serviceName : String
  currentVersion : SemVer
  unhealthyBlockDiff : Nat
  unhealthySlotDiffPlays : Option Nat
deriving DecidableEq, Repr

/-- Fields of a probe response that `isHealthy` inspects: HTTP status,
reported service name, reported version (`none` when `semver.valid` fails),
block_difference, and `plays.tx_info.slot_diff` when present. -/
structure HealthResponse where
  status : Nat
  service : String
  version : Option SemVer
  block_difference : Nat
  slotDiffPlays : Option Nat
deriving DecidableEq, Repr

/-- Condition of the slot-diff rejection branch of `isHealthy`:
`slotDiffPlays !== null && unhealthySlotDiffPlays !== null && slotDiffPlays > unhealthySlotDiffPlays`. -/
def slotDiffTrips (cfg : HealthConfig) (r : HealthResponse) : Bool :=
  match r.slotDiffPlays, cfg.unhealthySlotDiffPlays with
  | some s, some t => decide (s > t)
  | _, _ => false

/-- Pure core of `isHealthy`: returns (healthy verdict, whether `addBackup`
was called). The cascade of early returns of the source is mirrored branch
for branch. -/
def isHealthyCore (cfg : HealthConfig) (r : HealthResponse) : Bool × Bool :=
  if r.status ≠ 200 then (false, false)
  else if r.service ≠ cfg.serviceName then (false, false)
  else
    match r.version with
    | none => (false, false)
    | some v =>
      if hasSameMajorAndMinorVersion cfg.currentVersion v = false then (false, false)
      else if v.patch < cfg.currentVersion.patch then (false, true)
      else if r.block_difference > cfg.unhealthyBlockDiff then (false, true)
      else if slotDiffTrips cfg r then (false, true)
      else (true, false)

/-- Embedding of `isHealthy` including the monitoring callback: the
`monitoringCallbacks.healthCheck` invocation is wrapped in try/catch in the
source, so its outcome (`monitoring`, `none` when no callback is configured)
is swallowed and the method never throws: it always returns the core verdict. -/
def isHealthy (cfg : HealthConfig) (monitoring : Option (Except Unit Unit))
    (r : HealthResponse) : Except Unit (Bool × Bool) :=
  match monitoring with
  | some _ => Except.ok (isHealthyCore cfg r)
  | none => Except.ok (isHealthyCore cfg r)

/-- Embedding of `select()`: after `super.select()` produces `superResult`,
the configured `selectionCallback` is invoked with no surrounding try/catch,
so an exception it raises propagates out of `select`. -/
def select (superResult : String)
    (selectionCallback : Option (String → Except Unit Unit)) :
    Except Unit String :=
  match selectionCallback with
  | none => Except.ok superResult
  | some cb =>
    match cb superResult with
    | Except.ok _ => Except.ok superResult
    | Except.error e => Except.error e

/-- PREVIOUS_VERSIONS_TO_CHECK constant of the source. -/
def PREVIOUS_VERSIONS_TO_CHECK : Nat := 5

/-- Data a BackupRecord keeps about a rejected endpoint:
the fields of `data.data` that `selectFromBackups` reads. -/
structure BackupData where
  block_difference : Nat
  version : SemVer
deriving DecidableEq, Repr

/-- Backups map, endpoint to record, in insertion order
(JS object key enumeration order for URL string keys). -/
abbrev Backups := List (String × BackupData)

/-- Version registry collaborator: `getNumberOfVersions` and `getVersion`
of ethContracts, modelled as a record. -/
structure Registry where
  numberOfVersions : Nat
  getVersion : Nat → SemVer

/-- A query made to the version registry, recorded so that the memoization
behaviour of the valid-version set can be stated. -/
inductive RegistryQuery where
  | numVersions : RegistryQuery
  | versionAt : Nat → RegistryQuery
deriving DecidableEq, Repr

/-- Mutable selector state crossing `selectFromBackups` calls: the
`regressedMode` flag, the cached `validVersions` list (null before first
use), and `currentVersion` fetched by `getServices`. -/
structure SelState where
  regressedMode : Bool
  validVersions : Option (List SemVer)
  currentVersion : SemVer
deriving DecidableEq, Repr

/-- Valid-version list built on first use: the current version followed by
min(PREVIOUS_VERSIONS_TO_CHECK, numberOfVersions - 1) past versions read at
indices numberOfVersions - 2 - i for i = 0, 1, ... (walking backward). -/
def buildValidVersions (current : SemVer) (reg : Registry) : List SemVer :=
  current ::
    (List.range (min PREVIOUS_VERSIONS_TO_CHECK (reg.numberOfVersions - 1))).map
      (fun i => reg.getVersion (reg.numberOfVersions - 2 - i))

/-- Valid versions used by a `selectFromBackups` call: the cached list when
present, else the freshly built one. -/
def resolveValidVersions (st : SelState) (reg : Registry) : List SemVer :=
  match st.validVersions with
  | some vs => vs
  | none => buildValidVersions st.currentVersion reg

/-- Registry queries a `selectFromBackups` call issues: none when the
valid-version list is cached, else one getNumberOfVersions followed by the
backward-walking getVersion calls. -/
def validVersionsQueries (st : SelState) (reg : Registry) : List RegistryQuery :=
  match st.validVersions with
  | some _ => []
  | none =>
    RegistryQuery.numVersions ::
      (List.range (min PREVIOUS_VERSIONS_TO_CHECK (reg.numberOfVersions - 1))).map
        (fun i => RegistryQuery.versionAt (reg.numberOfVersions - 2 - i))

/-- The filter applied to the backups map: keep a backup iff its version has
the same major and minor as some entry of the valid-version list
(`isVersionOk` in the source). -/
def filterBackups (vs : List SemVer) (bk : Backups) : Backups :=
  bk.filter (fun b => vs.any (fun v => hasSameMajorAndMinorVersion v b.2.version))

/-- Insertion of a version into a descending-sorted version list; building
block of the `versions.sort(semver.rcompare)` result. -/
def insertDesc (v : SemVer) : List SemVer → List SemVer
  | [] => [v]
  | w :: ws => if semverLe w v then v :: w :: ws else w :: insertDesc v ws

/-- Versions sorted in descending semver order, as `semver.rcompare` sorts
them (ties are exactly equal versions, so the sorted list of values is
unique and any correct sort produces it). -/
def sortDesc (l : List SemVer) : List SemVer := l.foldr insertDesc []

/-- Walk of the descending version list: for each version, scan its
endpoint group (backups of that version, in insertion order) for the first
one whose block_difference is strictly under UNHEALTHY_BLOCK_DIFF, and
return it immediately when found. -/
def selectGroupedGo (T : Nat) (filtered : Backups) : List SemVer → Option String
  | [] => none
  | v :: rest =>
    match (filtered.filter (fun b => b.2.version == v)).find?
        (fun b => decide (b.2.block_difference < T)) with
    | some b => some b.1
    | none => selectGroupedGo T filtered rest

/-- Version-grouped step of `selectFromBackups` (lines 257-273): versions
sorted descending, first under-threshold candidate of the newest version
that has one. -/
def selectGrouped (T : Nat) (filtered : Backups) : Option String :=
  selectGroupedGo T filtered (sortDesc (filtered.map (fun b => b.2.version)))

/-- Decimal digits of a Nat, most significant first, as JavaScript
stringifies the number for the default sort comparator. -/
def decimalDigits : Nat → Nat → List Nat
  | 0, _ => []
  | fuel + 1, n => if n < 10 then [n] else decimalDigits fuel (n / 10) ++ [n % 10]

/-- Digits of the decimal string of n. -/
def digitsOf (n : Nat) : List Nat := decimalDigits (n + 1) n

/-- Lexicographic order on digit strings: the order in which JavaScript's
default `sort()` (string comparison of UTF-16 code units) ranks numbers. -/
def lexLeNat : List Nat → List Nat → Bool
  | [], _ => true
  | _ :: _, [] => false
  | a :: as, b :: bs =>
    if a < b then true else if b < a then false else lexLeNat as bs

/-- JS default-sort comparison of two numbers: String(a) <= String(b). -/
def jsStrLe (a b : Nat) : Bool := lexLeNat (digitsOf a) (digitsOf b)

/-- The smaller of two numbers under the JS string order. -/
def jsMin (a b : Nat) : Nat := if jsStrLe a b then a else b

/-- First element of `blockDiffs.sort()`: the least block diff under the JS
default string order, `none` for the empty list (JS: `undefined`). -/
def bestBlockDiff : List Nat → Option Nat
  | [] => none
  | d :: ds => some (ds.foldl jsMin d)

/-- Last-resort step of `selectFromBackups` (lines 275-278):
`blockDiffMap[blockDiffs.sort()[0]][0]`. On an empty filtered set,
`blockDiffs.sort()[0]` is `undefined`, `blockDiffMap[undefined]` is
`undefined`, and indexing it with `[0]` throws a TypeError, embedded as
`Except.error ()`. -/
def selectLastResort (filtered : Backups) : Except Unit String :=
  match bestBlockDiff (filtered.map (fun b => b.2.block_difference)) with
  | none => Except.error ()
  | some d =>
    match (filtered.filter (fun b => b.2.block_difference == d)).head? with
    | some b => Except.ok b.1
    | none => Except.error ()

/-- Embedding of `selectFromBackups`: builds or reuses the valid-version
list (recording registry queries), filters the backups, tries the
version-grouped step, then the last-resort step; only the last-resort step
calls `enterRegressedMode` (sets the flag true) before returning. Returns
(result, updated state, registry queries issued). -/
def selectFromBackups (T : Nat) (reg : Registry) (st : SelState) (bk : Backups) :
    Except Unit String × SelState × List RegistryQuery :=
  let vs := resolveValidVersions st reg
  let log := validVersionsQueries st reg
  let stv : SelState := { st with validVersions := some vs }
  let filtered := filterBackups vs bk
  match selectGrouped T filtered with
  | some e => (Except.ok e, stv, log)
  | none =>
    match selectLastResort filtered with
    | Except.ok e => (Except.ok e, { stv with regressedMode := true }, log)
    | Except.error u => (Except.error u, stv, log)

/-- Regressed-mode timer state: the flag plus the multiset of pending
`setTimeout` expiry times scheduled by `enterRegressedMode`. -/
structure TimerState where
  regressedMode : Bool
  timers : List Nat
deriving DecidableEq, Repr

/-- Timer state of a fresh selector: not regressed, no pending timer. -/
def initialTimerState : TimerState := ⟨false, []⟩

/-- Embedding of `enterRegressedMode` called at time `now`: sets the flag
and schedules one more expiry at now + REGRESSED_MODE_TIMEOUT; the source
never cancels a previously scheduled timer. -/
def enterRegressedMode (timeout now : Nat) (s : TimerState) : TimerState :=
  { regressedMode := true, timers := s.timers ++ [now + timeout] }

/-- Advancing the clock to `now` with no intervening call: every pending
timer whose expiry has been reached fires, and each firing callback sets
`regressedMode := false`. -/
def fireTimers (now : Nat) (s : TimerState) : TimerState :=
  if s.timers.any (fun t => decide (t ≤ now)) then
    { regressedMode := false, timers := s.timers.filter (fun t => decide (now < t)) }
  else s

theorem semverLe_of_lt (a b : SemVer) (h : semverLt a b = true) : semverLe a b = true := by
  simp [semverLe, h]

theorem semverLt_asymm (a b : SemVer) (h : semverLt a b = true) : semverLe b a = false := by
  rcases a with ⟨am, an, ap⟩
  rcases b with ⟨bm, bn, bp⟩
  simp [semverLt, semverLe, SemVer.mk.injEq] at *
  omega

theorem semverLt_ne (a b : SemVer) (h : semverLt a b = true) : (a == b) = false := by
  rcases a with ⟨am, an, ap⟩
  rcases b with ⟨bm, bn, bp⟩
  simp [semverLt, SemVer.mk.injEq] at *
  omega

theorem foldl_jsMin_mem (ds : List Nat) (d : Nat) : ds.foldl jsMin d ∈ d :: ds := by
  induction ds generalizing d with
  | nil => simp
  | cons a ds ih =>
    have h := ih (jsMin d a)
    have hm : jsMin d a = d ∨ jsMin d a = a := by
      unfold jsMin
      split <;> simp
    simp only [List.foldl_cons]
    rcases List.mem_cons.mp h with h1 | h2
    · rw [h1]
      rcases hm with h3 | h3 <;> rw [h3] <;> simp
    · simp [h2]

theorem selectLastResort_of_ne_nil (filtered : Backups) (h : filtered ≠ []) :
    ∃ b, b ∈ filtered ∧ selectLastResort filtered = Except.ok b.1 := by
  rcases filtered with _ | ⟨x, rest⟩
  · exact absurd rfl h
  · have hdm : (rest.map (fun b => b.2.block_difference)).foldl jsMin x.2.block_difference ∈
        (x :: rest).map (fun b => b.2.block_difference) := by
      simpa using foldl_jsMin_mem (rest.map (fun b => b.2.block_difference))
        x.2.block_difference
    obtain ⟨b, hb, hbd⟩ := List.mem_map.mp hdm
    rcases hl : (x :: rest).filter (fun c => c.2.block_difference ==
        (rest.map (fun b => b.2.block_difference)).foldl jsMin x.2.block_difference) with
        _ | ⟨c, cs⟩
    · exfalso
      have hfil : b ∈ (x :: rest).filter (fun c => c.2.block_difference ==
          (rest.map (fun b => b.2.block_difference)).foldl jsMin x.2.block_difference) := by
        rw [List.mem_filter]
        exact ⟨hb, by simp [hbd]⟩
      rw [hl] at hfil
      exact List.not_mem_nil _ hfil
    · refine ⟨c, ?_, ?_⟩
      · have hc : c ∈ (x :: rest).filter (fun c => c.2.block_difference ==
            (rest.map (fun b => b.2.block_difference)).foldl jsMin x.2.block_difference) := by
          rw [hl]; exact List.mem_cons_self _ _
        exact (List.mem_filter.mp hc).1
      · unfold selectLastResort bestBlockDiff
        simp only [List.map_cons]
        rw [hl]
        rfl

theorem selectLastResort_ok_mem (filtered : Backups) (e : String)
    (h : selectLastResort filtered = Except.ok e) :
    ∃ b, b ∈ filtered ∧ b.1 = e := by
  unfold selectLastResort at h
  rcases hb : bestBlockDiff (filtered.map fun b => b.2.block_difference) with _ | d
  · rw [hb] at h
    exact absurd h (by simp)
  · rw [hb] at h
    dsimp only [] at h
    rcases hl : filtered.filter (fun b => b.2.block_difference == d) with _ | ⟨c, cs⟩
    · rw [hl] at h
      exact absurd h (by simp)
    · rw [hl] at h
      simp only [List.head?_cons, Except.ok.injEq] at h
      refine ⟨c, ?_, h⟩
      have hc : c ∈ filtered.filter (fun b => b.2.block_difference == d) := by
        rw [hl]; exact List.mem_cons_self _ _
      exact (List.mem_filter.mp hc).1

theorem selectGroupedGo_mem (T : Nat) (filtered : Backups) :
    ∀ (l : List SemVer) (e : String), selectGroupedGo T filtered l = some e →
      ∃ b, b ∈ filtered ∧ b.1 = e ∧ b.2.block_difference < T := by
  intro l
  induction l with
  | nil =>
    intro e h
    simp [selectGroupedGo] at h
  | cons v rest ih =>
    intro e h
    unfold selectGroupedGo at h
    rcases hf : (filtered.filter (fun b => b.2.version == v)).find?
        (fun b => decide (b.2.block_difference < T)) with _ | b
    · rw [hf] at h
      exact ih e h
    · rw [hf] at h
      simp only [Option.some.injEq] at h
      have hmem := List.mem_of_find?_eq_some hf
      have hpred := List.find?_some hf
      exact ⟨b, (List.mem_filter.mp hmem).1, h, by simpa using hpred⟩

theorem selectGrouped_mem (T : Nat) (filtered : Backups) (e : String)
    (h : selectGrouped T filtered = some e) :
    ∃ b, b ∈ filtered ∧ b.1 = e ∧ b.2.block_difference < T :=
  selectGroupedGo_mem T filtered _ e h

theorem filterBackups_mem (vs : List SemVer) (bk : Backups) (b : String × BackupData)
    (h : b ∈ filterBackups vs bk) :
    b ∈ bk ∧ ∃ v, v ∈ vs ∧ hasSameMajorAndMinorVersion v b.2.version = true := by
  have h2 := List.mem_filter.mp h
  refine ⟨h2.1, ?_⟩
  simpa using h2.2

theorem selectFromBackups_validVersions (T : Nat) (reg : Registry) (st : SelState)
    (bk : Backups) :
    (selectFromBackups T reg st bk).2.1.validVersions =
      some (resolveValidVersions st reg) := by
  unfold selectFromBackups
  rcases hg : selectGrouped T (filterBackups (resolveValidVersions st reg) bk) with _ | e
  · rcases hl : selectLastResort (filterBackups (resolveValidVersions st reg) bk) with u | e
    · simp [hg, hl]
    · simp [hg, hl]
  · simp [hg]

theorem selectFromBackups_log (T : Nat) (reg : Registry) (st : SelState) (bk : Backups) :
    (selectFromBackups T reg st bk).2.2 = validVersionsQueries st reg := by
  unfold selectFromBackups
  rcases hg : selectGrouped T (filterBackups (resolveValidVersions st reg) bk) with _ | e
  · rcases hl : selectLastResort (filterBackups (resolveValidVersions st reg) bk) with u | e
    · simp [hg, hl]
    · simp [hg, hl]
  · simp [hg]

/-- C1 counterexample: with the current version 1.2.3 cached as the only
valid version and a single backup of that very version with block lag 0,
`selectFromBackups` returns the non-null candidate "a" through the
version-grouped step, yet leaves `regressedMode` at false — refuting the
claim that every non-null backup selection sets regressed mode. -/
theorem c1_grouped_selection_counterexample :
    (selectFromBackups 15 ⟨1, fun _ => ⟨1, 2, 3⟩⟩ ⟨false, some [⟨1, 2, 3⟩], ⟨1, 2, 3⟩⟩
        [("a", ⟨0, ⟨1, 2, 3⟩⟩)]).1 = Except.ok "a" ∧
    (selectFromBackups 15 ⟨1, fun _ => ⟨1, 2, 3⟩⟩ ⟨false, some [⟨1, 2, 3⟩], ⟨1, 2, 3⟩⟩
        [("a", ⟨0, ⟨1, 2, 3⟩⟩)]).2.1.regressedMode = false :=
  ⟨rfl, rfl⟩

/-- C1 amended: whenever at least one backup passes the valid-version
filter, `selectFromBackups` returns a non-null candidate; the selection
sets `regressedMode` to true when it is made by the last-resort step, and
leaves `regressedMode` unchanged when it is made by the version-grouped
under-threshold step. -/
theorem c1_backup_selection_nonnull (T : Nat) (reg : Registry) (st : SelState)
    (bk : Backups) (h : filterBackups (resolveValidVersions st reg) bk ≠ []) :
    ∃ e, (selectFromBackups T reg st bk).1 = Except.ok e ∧
      (selectFromBackups T reg st bk).2.1.regressedMode =
        (if (selectGrouped T (filterBackups (resolveValidVersions st reg) bk)).isSome
          then st.regressedMode else true) := by
  rcases hg : selectGrouped T (filterBackups (resolveValidVersions st reg) bk) with _ | e
  · obtain ⟨b, hb, hsel⟩ := selectLastResort_of_ne_nil _ h
    refine ⟨b.1, ?_, ?_⟩
    · unfold selectFromBackups
      simp [hg, hsel]
    · unfold selectFromBackups
      simp [hg, hsel]
  · refine ⟨e, ?_, ?_⟩
    · unfold selectFromBackups
      simp [hg]
    · unfold selectFromBackups
      simp [hg]

/-- C1 witness: the amended theorem applied at a concrete roster with one
valid-version backup. -/
theorem c1_backup_selection_nonnull_witness :
    filterBackups
        (resolveValidVersions ⟨false, some [⟨1, 2, 3⟩], ⟨1, 2, 3⟩⟩ ⟨1, fun _ => ⟨1, 2, 3⟩⟩)
        [("a", ⟨0, ⟨1, 2, 3⟩⟩)] ≠ [] ∧
    ∃ e, (selectFromBackups 15 ⟨1, fun _ => ⟨1, 2, 3⟩⟩ ⟨false, some [⟨1, 2, 3⟩], ⟨1, 2, 3⟩⟩
        [("a", ⟨0, ⟨1, 2, 3⟩⟩)]).1 = Except.ok e ∧
      (selectFromBackups 15 ⟨1, fun _ => ⟨1, 2, 3⟩⟩ ⟨false, some [⟨1, 2, 3⟩], ⟨1, 2, 3⟩⟩
          [("a", ⟨0, ⟨1, 2, 3⟩⟩)]).2.1.regressedMode =
        (if (selectGrouped 15 (filterBackups
            (resolveValidVersions ⟨false, some [⟨1, 2, 3⟩], ⟨1, 2, 3⟩⟩ ⟨1, fun _ => ⟨1, 2, 3⟩⟩)
            [("a", ⟨0, ⟨1, 2, 3⟩⟩)])).isSome
          then (⟨false, some [⟨1, 2, 3⟩], ⟨1, 2, 3⟩⟩ : SelState).regressedMode else true) :=
  ⟨by decide,
    c1_backup_selection_nonnull 15 ⟨1, fun _ => ⟨1, 2, 3⟩⟩ ⟨false, some [⟨1, 2, 3⟩], ⟨1, 2, 3⟩⟩
      [("a", ⟨0, ⟨1, 2, 3⟩⟩)] (by decide)⟩

/-- C2: on a backups map with no valid-version entry (here: the empty map,
with the valid-version list cached) the source evaluates
`blockDiffMap[blockDiffs.sort()[0]][0]`, i.e. indexes `undefined`, and
throws a TypeError instead of returning null: the embedded call yields
`Except.error ()` with `regressedMode` untouched. -/
theorem c2_empty_backups_throws :
    selectFromBackups 15 ⟨1, fun _ => ⟨1, 2, 3⟩⟩ ⟨false, some [⟨1, 2, 3⟩], ⟨1, 2, 3⟩⟩ [] =
      (Except.error (), ⟨false, some [⟨1, 2, 3⟩], ⟨1, 2, 3⟩⟩, []) :=
  rfl

/-- C3: with two same-version backups of block lags 100 and 99, both at or
above the threshold 15, the last-resort step sorts the lags as strings
("100" < "99"), so the candidate "a" with the numerically LARGER lag 100 is
returned instead of "b" with the smallest lag 99. -/
theorem c3_string_sort_picks_larger_lag :
    (selectFromBackups 15 ⟨1, fun _ => ⟨1, 2, 3⟩⟩ ⟨false, some [⟨1, 2, 3⟩], ⟨1, 2, 3⟩⟩
        [("a", ⟨100, ⟨1, 2, 3⟩⟩), ("b", ⟨99, ⟨1, 2, 3⟩⟩)]).1 = Except.ok "a" ∧
    (99 : Nat) < 100 :=
  ⟨rfl, by norm_num⟩

/-- C4 counterexample: calling `enterRegressedMode` at times 0 and 1 with
timeout 10 leaves TWO pending expiry timers, and advancing the clock to
time 10 — strictly before the last call plus timeout (11) — already flips
`regressedMode` back to false: the claimed single-replaced-timer invariant
fails on the code. -/
theorem c4_timer_stacking_counterexample :
    (enterRegressedMode 10 1 (enterRegressedMode 10 0 initialTimerState)).timers.length = 2 ∧
    (fireTimers 10 (enterRegressedMode 10 1
        (enterRegressedMode 10 0 initialTimerState))).regressedMode = false ∧
    (10 : Nat) < 1 + 10 :=
  ⟨rfl, rfl, by norm_num⟩

/-- C4 amended: each `enterRegressedMode` call schedules one more
independent timer without cancelling the previous one, so after calls at
times t1 and t2 two pending expiries exist and `regressedMode` returns to
false as soon as the EARLIEST expiry (first call plus timeout) is reached. -/
theorem c4_timers_stack (timeout t1 t2 : Nat) :
    (enterRegressedMode timeout t2 (enterRegressedMode timeout t1 initialTimerState)).timers =
      [t1 + timeout, t2 + timeout] ∧
    (enterRegressedMode timeout t2
        (enterRegressedMode timeout t1 initialTimerState)).regressedMode = true ∧
    ∀ now, t1 + timeout ≤ now →
      (fireTimers now (enterRegressedMode timeout t2
          (enterRegressedMode timeout t1 initialTimerState))).regressedMode = false := by
  refine ⟨rfl, rfl, ?_⟩
  intro now hnow
  simp [fireTimers, enterRegressedMode, initialTimerState, hnow]

/-- C4 witness: the amended theorem applied at timeout 10 with calls at
times 0 and 1 and the clock advanced to 10. -/
theorem c4_timers_stack_witness :
    (0 + 10 ≤ 10) ∧
    (fireTimers 10 (enterRegressedMode 10 1
        (enterRegressedMode 10 0 initialTimerState))).regressedMode = false :=
  ⟨by norm_num, (c4_timers_stack 10 0 1).2.2 10 (by norm_num)⟩

/-- C5 counterexample: a throwing `selectionCallback` makes `select`
propagate the exception instead of returning the endpoint "a" that a
non-throwing callback yields — there is no try/catch around the selection
callback in the source. -/
theorem c5_selection_callback_counterexample :
    select "a" (some (fun _ => Except.error ())) = Except.error () ∧
    select "a" (some (fun _ => Except.ok ())) = Except.ok "a" :=
  ⟨rfl, rfl⟩

/-- C5 amended: exceptions of the `monitoringCallbacks.healthCheck`
callback are caught (its try/catch), so `isHealthy` always returns the
core verdict whatever the callback outcome; but a `selectionCallback`
exception propagates out of `select`, which then fails instead of
returning the endpoint it returns under a non-throwing callback. -/
theorem c5_callback_exception_handling :
    (∀ (cfg : HealthConfig) (m : Option (Except Unit Unit)) (r : HealthResponse),
      isHealthy cfg m r = Except.ok (isHealthyCore cfg r)) ∧
    (∀ (s : String) (cb : String → Except Unit Unit), cb s = Except.error () →
      select s (some cb) = Except.error ()) ∧
    (∀ (s : String) (cb : String → Except Unit Unit), cb s = Except.ok () →
      select s (some cb) = Except.ok s) := by
  refine ⟨?_, ?_, ?_⟩
  · intro cfg m r
    cases m <;> rfl
  · intro s cb h
    unfold select
    dsimp only []
    rw [h]
  · intro s cb h
    unfold select
    dsimp only []
    rw [h]

/-- C5 witness: the amended theorem applied to a throwing selection
callback at endpoint "a", a succeeding one at endpoint "b", and a throwing
monitoring callback at a concrete healthy response. -/
theorem c5_callback_exception_handling_witness :
    isHealthy ⟨"discovery-provider", ⟨1, 2, 3⟩, 15, none⟩ (some (Except.error ()))
        ⟨200, "discovery-provider", some ⟨1, 2, 3⟩, 0, none⟩ =
      Except.ok (isHealthyCore ⟨"discovery-provider", ⟨1, 2, 3⟩, 15, none⟩
        ⟨200, "discovery-provider", some ⟨1, 2, 3⟩, 0, none⟩) ∧
    select "a" (some (fun _ => Except.error ())) = Except.error () ∧
    select "b" (some (fun _ => Except.ok ())) = Except.ok "b" :=
  ⟨c5_callback_exception_handling.1 _ _ _,
    c5_callback_exception_handling.2.1 "a" (fun _ => Except.error ()) rfl,
    c5_callback_exception_handling.2.2 "b" (fun _ => Except.ok ()) rfl⟩

/-- C6: `isHealthy` (its pure core) classifies a response healthy iff the
status is 200, the service name matches, the version parses, the version
shares major.minor with the current version, its patch is not lower than
the expected patch, the block difference does not exceed the threshold,
and the slot-diff check does not trip; and a BackupRecord is added exactly
when the earlier checks pass and the first failing check is the
patch-behind, block-diff, or slot-diff one. -/
theorem c6_isHealthy_characterization (cfg : HealthConfig) (r : HealthResponse) :
    ((isHealthyCore cfg r).1 = true ↔
      (r.status = 200 ∧ r.service = cfg.serviceName ∧
        ∃ v, r.version = some v ∧
          hasSameMajorAndMinorVersion cfg.currentVersion v = true ∧
          cfg.currentVersion.patch ≤ v.patch ∧
          r.block_difference ≤ cfg.unhealthyBlockDiff ∧
          slotDiffTrips cfg r = false)) ∧
    ((isHealthyCore cfg r).2 = true ↔
      (r.status = 200 ∧ r.service = cfg.serviceName ∧
        ∃ v, r.version = some v ∧
          hasSameMajorAndMinorVersion cfg.currentVersion v = true ∧
          (v.patch < cfg.currentVersion.patch ∨
            (cfg.currentVersion.patch ≤ v.patch ∧
              cfg.unhealthyBlockDiff < r.block_difference) ∨
            (cfg.currentVersion.patch ≤ v.patch ∧
              r.block_difference ≤ cfg.unhealthyBlockDiff ∧
              slotDiffTrips cfg r = true)))) := by
  rcases hv : r.version with _ | v <;>
    constructor <;>
    simp only [isHealthyCore, hv] <;>
    split_ifs <;>
    simp_all

/-- C7: whenever `selectFromBackups` returns a non-null candidate, that
candidate is one of the backups and its recorded version has the same
major.minor as some entry of the valid-version list in force for the call
— on the version-grouped path and on the last-resort path alike. -/
theorem c7_selected_version_is_valid (T : Nat) (reg : Registry) (st : SelState)
    (bk : Backups) (e : String)
    (h : (selectFromBackups T reg st bk).1 = Except.ok e) :
    ∃ b, b ∈ bk ∧ b.1 = e ∧
      ∃ v, v ∈ resolveValidVersions st reg ∧
        hasSameMajorAndMinorVersion v b.2.version = true := by
  unfold selectFromBackups at h
  dsimp only [] at h
  rcases hg : selectGrouped T (filterBackups (resolveValidVersions st reg) bk) with _ | e0
  · rw [hg] at h
    dsimp only [] at h
    rcases hl : selectLastResort (filterBackups (resolveValidVersions st reg) bk) with u | e1
    · rw [hl] at h
      exact absurd h (by simp)
    · rw [hl] at h
      dsimp only [] at h
      simp only [Except.ok.injEq] at h
      obtain ⟨b, hb, hbe⟩ := selectLastResort_ok_mem _ _ hl
      obtain ⟨hbk, hvv⟩ := filterBackups_mem _ _ _ hb
      exact ⟨b, hbk, by rw [hbe, h], hvv⟩
  · rw [hg] at h
    dsimp only [] at h
    simp only [Except.ok.injEq] at h
    obtain ⟨b, hb, hbe, hlt⟩ := selectGrouped_mem _ _ _ hg
    obtain ⟨hbk, hvv⟩ := filterBackups_mem _ _ _ hb
    exact ⟨b, hbk, by rw [hbe, h], hvv⟩

/-- C7 witness: the theorem applied at a concrete call that selects "a". -/
theorem c7_selected_version_is_valid_witness :
    (selectFromBackups 15 ⟨1, fun _ => ⟨1, 2, 3⟩⟩ ⟨false, some [⟨1, 2, 3⟩], ⟨1, 2, 3⟩⟩
        [("a", ⟨0, ⟨1, 2, 3⟩⟩)]).1 = Except.ok "a" ∧
    ∃ b, b ∈ ([("a", ⟨0, ⟨1, 2, 3⟩⟩)] : Backups) ∧ b.1 = "a" ∧
      ∃ v, v ∈ resolveValidVersions ⟨false, some [⟨1, 2, 3⟩], ⟨1, 2, 3⟩⟩
          ⟨1, fun _ => ⟨1, 2, 3⟩⟩ ∧
        hasSameMajorAndMinorVersion v b.2.version = true :=
  ⟨rfl, c7_selected_version_is_valid 15 ⟨1, fun _ => ⟨1, 2, 3⟩⟩
    ⟨false, some [⟨1, 2, 3⟩], ⟨1, 2, 3⟩⟩ [("a", ⟨0, ⟨1, 2, 3⟩⟩)] "a" rfl⟩

/-- C9: on a call with no cached valid-version list the state afterwards
caches the current version followed by min(PREVIOUS_VERSIONS_TO_CHECK,
numberOfVersions - 1) past versions read backward from index
numberOfVersions - 2, and the registry is queried once for the version
count and once per past version; any later call starting from that state
issues no registry query at all and keeps the same cached list. -/
theorem c9_validVersions_memoized (T : Nat) (reg : Registry) (rm : Bool) (c : SemVer)
    (bk bk' : Backups) :
    (selectFromBackups T reg ⟨rm, none, c⟩ bk).2.1.validVersions =
      some (c :: (List.range (min PREVIOUS_VERSIONS_TO_CHECK (reg.numberOfVersions - 1))).map
        (fun i => reg.getVersion (reg.numberOfVersions - 2 - i))) ∧
    (selectFromBackups T reg ⟨rm, none, c⟩ bk).2.2 =
      RegistryQuery.numVersions ::
        (List.range (min PREVIOUS_VERSIONS_TO_CHECK (reg.numberOfVersions - 1))).map
          (fun i => RegistryQuery.versionAt (reg.numberOfVersions - 2 - i)) ∧
    (selectFromBackups T reg ((selectFromBackups T reg ⟨rm, none, c⟩ bk).2.1) bk').2.2 = [] ∧
    (selectFromBackups T reg ((selectFromBackups T reg ⟨rm, none, c⟩ bk).2.1) bk').2.1.validVersions =
      (selectFromBackups T reg ⟨rm, none, c⟩ bk).2.1.validVersions := by
  have h1 : (selectFromBackups T reg ⟨rm, none, c⟩ bk).2.1.validVersions =
      some (buildValidVersions c reg) := by
    rw [selectFromBackups_validVersions]
    rfl
  refine ⟨?_, ?_, ?_, ?_⟩
  · rw [h1]
    rfl
  · rw [selectFromBackups_log]
    rfl
  · rw [selectFromBackups_log]
    unfold validVersionsQueries
    rw [h1]
  · rw [selectFromBackups_validVersions, h1]
    unfold resolveValidVersions
    rw [h1]

/-- C10: the block-diff threshold is inclusive for health classification —
a response passing every other check whose block difference equals the
threshold exactly is healthy and records no backup — yet exclusive for the
version-grouped backup step, which only ever selects a backup whose block
lag is strictly below the threshold. -/
theorem c10_threshold_boundary :
    (∀ (cfg : HealthConfig) (r : HealthResponse) (v : SemVer),
      r.status = 200 → r.service = cfg.serviceName → r.version = some v →
      hasSameMajorAndMinorVersion cfg.currentVersion v = true →
      cfg.currentVersion.patch ≤ v.patch →
      r.block_difference = cfg.unhealthyBlockDiff →
      slotDiffTrips cfg r = false →
      isHealthyCore cfg r = (true, false)) ∧
    (∀ (T : Nat) (filtered : Backups) (e : String),
      selectGrouped T filtered = some e →
      ∃ b, b ∈ filtered ∧ b.1 = e ∧ b.2.block_difference < T) := by
  constructor
  · intro cfg r v h1 h2 h3 h4 h5 h6 h7
    simp [isHealthyCore, h1, h2, h3, h4, h5, h6, h7]
  · intro T filtered e h
    exact selectGrouped_mem T filtered e h

/-- C10 witness: both parts applied at concrete inputs — a response whose
block difference equals the threshold 15 is healthy with no backup, and a
concrete grouped selection's candidate has lag strictly below 15. -/
theorem c10_threshold_boundary_witness :
    isHealthyCore ⟨"discovery-provider", ⟨1, 2, 3⟩, 15, some 10⟩
        ⟨200, "discovery-provider", some ⟨1, 2, 3⟩, 15, none⟩ = (true, false) ∧
    ∃ b, b ∈ ([("a", ⟨14, ⟨1, 2, 3⟩⟩)] : Backups) ∧ b.1 = "a" ∧
      b.2.block_difference < 15 :=
  ⟨c10_threshold_boundary.1 ⟨"discovery-provider", ⟨1, 2, 3⟩, 15, some 10⟩
      ⟨200, "discovery-provider", some ⟨1, 2, 3⟩, 15, none⟩ ⟨1, 2, 3⟩
      rfl rfl rfl rfl (by norm_num) rfl rfl,
    c10_threshold_boundary.2 15 [("a", ⟨14, ⟨1, 2, 3⟩⟩)] "a" rfl⟩

/-- C8: given exactly two backups of different valid versions, both with
block lag strictly under the threshold, `selectFromBackups` returns the
backup running the numerically higher semantic version — whichever order
the two occupy in the backups map — and does so through the version-grouped
step, leaving `regressedMode` unchanged. -/
theorem c8_newest_version_first (T : Nat) (reg : Registry) (rm : Bool) (c : SemVer)
    (vs : List SemVer) (e1 e2 : String) (d1 d2 : BackupData)
    (hv : semverLt d2.version d1.version = true)
    (h1 : vs.any (fun v => hasSameMajorAndMinorVersion v d1.version) = true)
    (h2 : vs.any (fun v => hasSameMajorAndMinorVersion v d2.version) = true)
    (hb1 : d1.block_difference < T) (hb2 : d2.block_difference < T) :
    (selectFromBackups T reg ⟨rm, some vs, c⟩ [(e1, d1), (e2, d2)]).1 = Except.ok e1 ∧
    (selectFromBackups T reg ⟨rm, some vs, c⟩ [(e2, d2), (e1, d1)]).1 = Except.ok e1 ∧
    (selectFromBackups T reg ⟨rm, some vs, c⟩ [(e1, d1), (e2, d2)]).2.1.regressedMode = rm := by
  have hle : semverLe d2.version d1.version = true := semverLe_of_lt _ _ hv
  have hnle : semverLe d1.version d2.version = false := semverLt_asymm _ _ hv
  have hne : (d2.version == d1.version) = false := semverLt_ne _ _ hv
  have hne2 : (d1.version == d2.version) = false := by
    have := beq_eq_false_iff_ne.mp hne
    exact beq_eq_false_iff_ne.mpr (Ne.symm this)
  have hb1d : decide (d1.block_difference < T) = true := decide_eq_true hb1
  have hb2d : decide (d2.block_difference < T) = true := decide_eq_true hb2
  refine ⟨?_, ?_, ?_⟩ <;>
    simp [selectFromBackups, resolveValidVersions, filterBackups, selectGrouped, sortDesc,
      insertDesc, selectGroupedGo, validVersionsQueries, List.find?, List.filter,
      h1, h2, hle, hnle, hne, hne2, hb1d, hb2d]

/-- C8 witness: the theorem applied to backups "hi" (version 1.2.2, lag 5)
and "lo" (version 1.1.9, lag 0), both valid and under threshold 15: "hi"
wins in either map order. -/
theorem c8_newest_version_first_witness :
    semverLt (⟨1, 1, 9⟩ : SemVer) ⟨1, 2, 2⟩ = true ∧
    (selectFromBackups 15 ⟨1, fun _ => ⟨1, 2, 3⟩⟩
        ⟨false, some [⟨1, 2, 3⟩, ⟨1, 1, 9⟩], ⟨1, 2, 3⟩⟩
        [("hi", ⟨5, ⟨1, 2, 2⟩⟩), ("lo", ⟨0, ⟨1, 1, 9⟩⟩)]).1 = Except.ok "hi" ∧
    (selectFromBackups 15 ⟨1, fun _ => ⟨1, 2, 3⟩⟩
        ⟨false, some [⟨1, 2, 3⟩, ⟨1, 1, 9⟩], ⟨1, 2, 3⟩⟩
        [("lo", ⟨0, ⟨1, 1, 9⟩⟩), ("hi", ⟨5, ⟨1, 2, 2⟩⟩)]).1 = Except.ok "hi" :=
  ⟨by decide,
    (c8_newest_version_first 15 ⟨1, fun _ => ⟨1, 2, 3⟩⟩ false ⟨1, 2, 3⟩
      [⟨1, 2, 3⟩, ⟨1, 1, 9⟩] "hi" "lo" ⟨5, ⟨1, 2, 2⟩⟩ ⟨0, ⟨1, 1, 9⟩⟩
      (by decide) (by decide) (by decide) (by norm_num) (by norm_num)).1,
    (c8_newest_version_first 15 ⟨1, fun _ => ⟨1, 2, 3⟩⟩ false ⟨1, 2, 3⟩
      [⟨1, 2, 3⟩, ⟨1, 1, 9⟩] "hi" "lo" ⟨5, ⟨1, 2, 2⟩⟩ ⟨0, ⟨1, 1, 9⟩⟩
      (by decide) (by decide) (by decide) (by norm_num) (by norm_num)).2.1⟩

end Audius
